import Mathlib

/-!
Verification of the authorization and approval subsystem of the
studiotcreative/App repository.

The repository contains two variants of the auth-context helpers:
* `src/unnamed/part_001` (an `AuthProvider.jsx` version, duplicated verbatim
  inside `src/pages/Team.jsx` lines 364-381), embedded below in namespace
  `Part001`;
* `src/studiot (1)/src/components/auth/AuthProvider.jsx`, which first derives a
  single coarse `userRole` and defines all helpers from it, embedded below in
  namespace `StudiotAuth`.

The approval flow lives in `src/studiot (1)/src/components/posts/PostApproval.jsx`:
`handleApprove` and `handleRequestChanges` issue a sequence of separate remote
writes (the `approve_post` RPC, a `comments` insert, an `audit_logs` insert).
Each remote write is modelled as one atomic step on an explicit database state;
a handler run records every intermediate committed state (its trace), and a
boolean per remote write injects a transport failure, which in the source makes
`mutateAsync`/`createAuditLog` throw and abort the rest of the handler.
-/

/-- One row of `public.workspace_members` as selected by the providers
(`workspace_id, role`; the remaining selected columns are not consulted by any
helper). -/
structure WorkspaceMember where
  workspace_id : String
  role : String
  deriving DecidableEq, Repr

/-- One row of `public.profiles` as selected by the providers; only `role` is
consulted by the helpers. -/
structure Profile where
  id : String
  full_name : String
  role : String
  deriving DecidableEq, Repr

namespace Part001

/-- From src/unnamed/part_001 line 81: `const globalRole = profile?.role ?? "user"`. -/
def globalRole (profile : Option Profile) : String :=
  match profile with
  | some p => p.role
  | none => "user"

/-- From src/unnamed/part_001 line 82: `const isAdmin = () => globalRole === "admin"`. -/
def isAdmin (profile : Option Profile) : Bool :=
  globalRole profile == "admin"

/-- From src/unnamed/part_001 lines 84-85: any membership with role
`client_viewer` or `client_approver`. -/
def isClient (memberships : List WorkspaceMember) : Bool :=
  memberships.any (fun m => m.role == "client_viewer" || m.role == "client_approver")

/-- From src/unnamed/part_001 lines 87-88:
`isAdmin() || memberships.some((m) => m.role === "client_approver")`.
The JS function takes no workspace parameter; a call `canApprove(w)` ignores
its argument. -/
def canApprove (profile : Option Profile) (memberships : List WorkspaceMember) : Bool :=
  isAdmin profile || memberships.any (fun m => m.role == "client_approver")

/-- From src/unnamed/part_001 lines 90-91:
`isAdmin() || memberships.some((m) => m.workspace_id === workspaceId)`. -/
def hasAccessToWorkspace (profile : Option Profile) (memberships : List WorkspaceMember)
    (workspaceId : String) : Bool :=
  isAdmin profile || memberships.any (fun m => m.workspace_id == workspaceId)

/-- From src/unnamed/part_001 lines 94-98. -/
def getClientWorkspaceId (profile : Option Profile) (memberships : List WorkspaceMember) :
    Option String :=
  if isAdmin profile then none
  else (memberships.find? (fun m => m.role == "client_viewer" || m.role == "client_approver")).map
    (fun m => m.workspace_id)

/-- From src/unnamed/part_001 lines 41-47: on a profile load error the provider
stores `profile = null`, otherwise the loaded row. -/
def loadedProfile (result : Except String Profile) : Option Profile :=
  match result with
  | .error _ => none
  | .ok p => some p

end Part001

namespace StudiotAuth

/-- From AuthProvider.jsx line 62: `profile?.role === 'admin'` (false when the
profile is null). -/
def profileIsAdmin (profile : Option Profile) : Bool :=
  match profile with
  | some p => p.role == "admin"
  | none => false

/-- From AuthProvider.jsx lines 61-68: the coarse derived role, with priority
admin, then account manager anywhere, then client approver anywhere, then
client viewer anywhere, then `viewer`. -/
def userRole (profile : Option Profile) (memberships : List WorkspaceMember) : String :=
  if profileIsAdmin profile then "admin"
  else if memberships.any (fun m => m.role == "account_manager") then "account_manager"
  else if memberships.any (fun m => m.role == "client_approver") then "client_approver"
  else if memberships.any (fun m => m.role == "client_viewer") then "client_viewer"
  else "viewer"

/-- From AuthProvider.jsx line 70. -/
def isAdmin (profile : Option Profile) (memberships : List WorkspaceMember) : Bool :=
  userRole profile memberships == "admin"

/-- From AuthProvider.jsx line 71. -/
def isAccountManager (profile : Option Profile) (memberships : List WorkspaceMember) : Bool :=
  userRole profile memberships == "account_manager" || userRole profile memberships == "admin"

/-- From AuthProvider.jsx line 72. -/
def isClient (profile : Option Profile) (memberships : List WorkspaceMember) : Bool :=
  userRole profile memberships == "client_viewer" ||
    userRole profile memberships == "client_approver"

/-- From AuthProvider.jsx line 73: `userRole === 'client_approver' || userRole === 'admin'`.
Like the Part001 variant it takes no workspace parameter. -/
def canApprove (profile : Option Profile) (memberships : List WorkspaceMember) : Bool :=
  userRole profile memberships == "client_approver" || userRole profile memberships == "admin"

end StudiotAuth

/-- A post row as used by PostApproval.jsx (`id`, `workspace_id`, `status`,
`approval_status`, `approved_by`, `approved_at`). Timestamps are abstract
naturals. -/
structure Post where
  id : String
  workspace_id : String
  status : String
  approval_status : Option String
  approved_by : Option String
  approved_at : Option Nat
  deriving DecidableEq, Repr

/-- The `details` JSON object built by `handleApprove` / `handleRequestChanges`
in PostApproval.jsx; absent keys are `none`. -/
structure AuditDetails where
  action : String
  approved_by : Option String
  reason : Option String
  requested_by : Option String
  deriving DecidableEq, Repr

/-- One row of `audit_logs` as inserted by `createAuditLog` in PostApproval.jsx. -/
structure AuditLogEntry where
  workspace_id : String
  entity_type : String
  entity_id : String
  action : String
  details : AuditDetails
  deriving DecidableEq, Repr

/-- One row of `comments` as inserted by `createComment` in PostApproval.jsx. -/
structure Comment where
  post_id : String
  workspace_id : String
  content : String
  is_internal : Bool
  deriving DecidableEq, Repr

/-- The external store's state: the three tables the approval flow touches. -/
structure DB where
  posts : List Post
  comments : List Comment
  audit_logs : List AuditLogEntry
  deriving DecidableEq, Repr

/-- Server-side failures of the `approve_post` RPC. -/
inductive ApprovalError where
  | notFound
  | invalidState
  deriving DecidableEq, Repr

/-- Look a post up by id, as the store does. -/
def findPost (db : DB) (postId : String) : Option Post :=
  db.posts.find? (fun q => q.id == postId)

/-- Audit rows associated with a given post. -/
def auditEntriesFor (db : DB) (postId : String) : List AuditLogEntry :=
  db.audit_logs.filter (fun e => e.entity_type == "post" && e.entity_id == postId)

/-- Modelled from the spec: the server-side `approve_post` RPC invoked by
`updateMutation` in PostApproval.jsx is not part of the repository sources.
Sections 4.3, 5 and 6 of the spec describe it as a single atomic conditional
write: if the post exists and its status is still `sent_to_client`, set
`approvalStatus` to the requested verdict and record approver identity and
timestamp, succeeding even when the verdict equals the current one (the 4.2
idempotency policy); otherwise fail with `InvalidState` (`NotFound` when the
post is missing). The optional reason travels with the call; the client code
records it in the comment and audit rows. -/
def approve_post (p_post_id : String) (p_status : String) (p_reason : Option String)
    (actor : Option String) (now : Nat) (db : DB) : Except ApprovalError DB :=
  match findPost db p_post_id with
  | none => .error .notFound
  | some q =>
    if q.status == "sent_to_client" then
      .ok { db with posts := db.posts.map (fun r =>
        if r.id == p_post_id then
          { r with approval_status := some p_status,
                   approved_by := actor,
                   approved_at := some now }
        else r) }
    else .error .invalidState

/-- From `createAuditLog` in PostApproval.jsx lines 58-67: insert one row into
`audit_logs` carrying `post.workspace_id`, entity type `post` and the post id. -/
def createAuditLog (post : Post) (action : String) (details : AuditDetails) (db : DB) : DB :=
  { db with audit_logs := db.audit_logs ++
      [{ workspace_id := post.workspace_id, entity_type := "post",
         entity_id := post.id, action := action, details := details }] }

/-- From `createComment` in PostApproval.jsx lines 48-56: insert one row into
`comments`. -/
def createComment (c : Comment) (db : DB) : DB :=
  { db with comments := db.comments ++ [c] }

/-- Outcome of one handler run: the committed database state after each remote
write that succeeded (in order), the final state, and whether the handler ran
to completion without a throw. -/
structure RunResult where
  trace : List DB
  final : DB
  ok : Bool
  deriving DecidableEq, Repr

/-- The states a concurrent reader can observe around a handler run: the
initial state and every intermediate committed state. -/
def reachableStates (db : DB) (r : RunResult) : List DB :=
  db :: r.trace

/-- From `handleApprove` in PostApproval.jsx lines 69-78: await the
`approve_post` RPC with status `approved`, then insert the audit row in a
second, separate request. `failRpc` and `failAudit` inject a transport failure
of the respective request, which makes the corresponding `await` throw and
abort the rest of the handler. -/
def handleApprove (user_email : Option String) (post : Post) (now : Nat)
    (failRpc failAudit : Bool) (db : DB) : RunResult :=
  if failRpc then ⟨[], db, false⟩ else
  match approve_post post.id "approved" none user_email now db with
  | .error _ => ⟨[], db, false⟩
  | .ok db1 =>
    if failAudit then ⟨[db1], db1, false⟩
    else
      let db2 := createAuditLog post "approved"
        ⟨"Post approved", user_email, none, none⟩ db1
      ⟨[db1, db2], db2, true⟩

/-- From `handleRequestChanges` in PostApproval.jsx lines 80-101: await the
`approve_post` RPC with status `changes_requested` and reason
`rejectReason || null`; if `rejectReason` is truthy (non-empty), await the
comment insert; finally await the audit insert. Each failure flag makes that
request throw, aborting the rest of the handler. -/
def handleRequestChanges (user_email : Option String) (post : Post) (rejectReason : String)
    (now : Nat) (failRpc failComment failAudit : Bool) (db : DB) : RunResult :=
  if failRpc then ⟨[], db, false⟩ else
  match approve_post post.id "changes_requested"
      (if rejectReason == "" then none else some rejectReason) user_email now db with
  | .error _ => ⟨[], db, false⟩
  | .ok db1 =>
    if rejectReason == "" then
      if failAudit then ⟨[db1], db1, false⟩
      else
        let db2 := createAuditLog post "changes_requested"
          ⟨"Changes requested", none, none, user_email⟩ db1
        ⟨[db1, db2], db2, true⟩
    else
      if failComment then ⟨[db1], db1, false⟩
      else
        let db2 := createComment
          ⟨post.id, post.workspace_id, "Changes requested: " ++ rejectReason, false⟩ db1
        if failAudit then ⟨[db1, db2], db2, false⟩
        else
          let db3 := createAuditLog post "changes_requested"
            ⟨"Changes requested", none, some rejectReason, user_email⟩ db2
          ⟨[db1, db2, db3], db3, true⟩

namespace CalendarPage

/-- A `social_accounts` row as selected by the Calendar page. -/
structure SocialAccount where
  id : String
  workspace_id : String
  platform : String
  handle : String
  deriving DecidableEq, Repr

/-- A posts row as consumed by the Calendar page filter (`social_account_id`
is nullable). -/
structure CalendarPost where
  id : String
  workspace_id : String
  social_account_id : Option String
  platform : String
  deriving DecidableEq, Repr

/-- From the `filteredAccounts` memo of the Calendar page (second document in
PostApproval.jsx): narrow accounts by the workspace selector, then by the
platform selector, each an equality filter skipped when the selector is
`all`. -/
def filteredAccounts (allAccounts : List SocialAccount)
    (selectedWorkspace selectedPlatform : String) : List SocialAccount :=
  let accs := allAccounts
  let accs := if selectedWorkspace != "all"
    then accs.filter (fun a => a.workspace_id == selectedWorkspace) else accs
  let accs := if selectedPlatform != "all"
    then accs.filter (fun a => a.platform == selectedPlatform) else accs
  accs

/-- From the `posts` memo of the Calendar page: keep posts whose
`social_account_id`, when present, belongs to the filtered accounts, then apply
the workspace, platform and account selectors as equality filters, each skipped
when that selector is `all`. -/
def posts (allPosts : List CalendarPost) (allAccounts : List SocialAccount)
    (selectedWorkspace selectedPlatform selectedAccount : String) : List CalendarPost :=
  let accountIds := (filteredAccounts allAccounts selectedWorkspace selectedPlatform).map
    (fun a => a.id)
  let filtered := allPosts.filter (fun p =>
    match p.social_account_id with
    | some aid => accountIds.contains aid
    | none => true)
  let filtered := if selectedWorkspace != "all"
    then filtered.filter (fun p => p.workspace_id == selectedWorkspace) else filtered
  let filtered := if selectedPlatform != "all"
    then filtered.filter (fun p => p.platform == selectedPlatform) else filtered
  let filtered := if selectedAccount != "all"
    then filtered.filter (fun p => p.social_account_id == some selectedAccount) else filtered
  filtered

end CalendarPage

/-- A post in workspace `w1` awaiting client review. -/
def demoPost : Post :=
  ⟨"p1", "w1", "sent_to_client", none, none, none⟩

/-- A store holding only `demoPost`, with empty comment and audit tables. -/
def demoDB : DB :=
  ⟨[demoPost], [], []⟩

/-- `demoPost` after a first successful approval. -/
def demoApprovedPost : Post :=
  ⟨"p1", "w1", "sent_to_client", some "approved", some "client@w1.example", some 3⟩

/-- A store holding the already-approved post together with its audit entry. -/
def demoApprovedDB : DB :=
  ⟨[demoApprovedPost], [],
   [⟨"w1", "post", "p1", "approved", ⟨"Post approved", some "client@w1.example", none, none⟩⟩]⟩

section RoleResolution

/-- The role cascade of the studiot AuthProvider, abstracted over the four
boolean tests: the derived role is `client_viewer` or `client_approver` exactly
when the account is not admin, has no account-manager membership, and some
membership is a client approver or client viewer. -/
lemma studiot_client_cascade (b1 b2 b3 b4 : Bool) :
    (((if b1 then "admin" else if b2 then "account_manager" else if b3 then "client_approver"
        else if b4 then "client_viewer" else ("viewer" : String)) == "client_viewer") ||
     ((if b1 then "admin" else if b2 then "account_manager" else if b3 then "client_approver"
        else if b4 then "client_viewer" else "viewer") == "client_approver")) =
      (!b1 && !b2 && (b3 || b4)) := by
  cases b1 <;> cases b2 <;> cases b3 <;> cases b4 <;> rfl

/-- The same cascade for `canApprove`: the derived role is `client_approver` or
`admin` exactly when the account is admin, or has no account-manager membership
and some client-approver membership. -/
lemma studiot_approve_cascade (b1 b2 b3 b4 : Bool) :
    (((if b1 then "admin" else if b2 then "account_manager" else if b3 then "client_approver"
        else if b4 then "client_viewer" else ("viewer" : String)) == "client_approver") ||
     ((if b1 then "admin" else if b2 then "account_manager" else if b3 then "client_approver"
        else if b4 then "client_viewer" else "viewer") == "admin")) =
      (b1 || (!b2 && b3)) := by
  cases b1 <;> cases b2 <;> cases b3 <;> cases b4 <;> rfl

lemma StudiotAuth.isClient_eq (profile : Option Profile) (ms : List WorkspaceMember) :
    StudiotAuth.isClient profile ms =
      (!(StudiotAuth.profileIsAdmin profile) &&
       !(ms.any (fun m => m.role == "account_manager")) &&
       (ms.any (fun m => m.role == "client_approver") ||
        ms.any (fun m => m.role == "client_viewer"))) := by
  unfold StudiotAuth.isClient StudiotAuth.userRole
  exact studiot_client_cascade _ _ _ _

lemma StudiotAuth.canApprove_eq (profile : Option Profile) (ms : List WorkspaceMember) :
    StudiotAuth.canApprove profile ms =
      (StudiotAuth.profileIsAdmin profile ||
       (!(ms.any (fun m => m.role == "account_manager")) &&
        ms.any (fun m => m.role == "client_approver"))) := by
  unfold StudiotAuth.canApprove StudiotAuth.userRole
  exact studiot_approve_cascade _ _ _ _

end RoleResolution

/-- C1 counterexample: an account whose profile is absent (global role `user`)
and whose only membership is `client_approver` in workspace `w1`. The claim
demands `canApprove(w2) = false`, but both `canApprove` implementations ignore
the workspace argument and answer `true` for every workspace, `w2` included. -/
theorem c1_counterexample :
    (∀ m ∈ ([⟨"w1", "client_approver"⟩] : List WorkspaceMember), m.workspace_id ≠ "w2") ∧
    Part001.canApprove none [⟨"w1", "client_approver"⟩] = true ∧
    StudiotAuth.canApprove none [⟨"w1", "client_approver"⟩] = true := by
  decide

/-- C1 (amended): `canApprove` is not workspace-parameterized — it ignores the
workspace entirely. In the part_001 provider it is true iff the account is
admin or holds a `client_approver` membership in some (any) workspace; in the
studiot provider it is true iff the account is admin, or has no
`account_manager` membership and holds a `client_approver` membership in some
workspace. Consequently an account whose only `client_approver` membership is
in `w1` is told it can approve regardless of which workspace is asked about. -/
theorem c1_canApprove_coarse :
    (∀ (profile : Option Profile) (ms : List WorkspaceMember),
      Part001.canApprove profile ms = true ↔
        (Part001.globalRole profile = "admin" ∨ ∃ m ∈ ms, m.role = "client_approver")) ∧
    (∀ (profile : Option Profile) (ms : List WorkspaceMember),
      StudiotAuth.canApprove profile ms = true ↔
        (StudiotAuth.profileIsAdmin profile = true ∨
          ((¬ ∃ m ∈ ms, m.role = "account_manager") ∧ ∃ m ∈ ms, m.role = "client_approver"))) := by
  constructor
  · intro profile ms
    simp [Part001.canApprove, Part001.isAdmin, List.any_eq_true, beq_iff_eq]
  · intro profile ms
    rw [StudiotAuth.canApprove_eq]
    simp [List.any_eq_true, beq_iff_eq]

/-- C7: `hasAccessToWorkspace(w)` is true iff the account is admin or some
membership references workspace `w`; in particular an account whose global
role resolves to `user` and that has no memberships is denied every
workspace. -/
theorem c7_hasAccessToWorkspace_spec :
    (∀ (profile : Option Profile) (ms : List WorkspaceMember) (w : String),
      Part001.hasAccessToWorkspace profile ms w = true ↔
        (Part001.globalRole profile = "admin" ∨ ∃ m ∈ ms, m.workspace_id = w)) ∧
    (∀ (profile : Option Profile) (w : String),
      Part001.globalRole profile = "user" →
        Part001.hasAccessToWorkspace profile [] w = false) := by
  constructor
  · intro profile ms w
    simp [Part001.hasAccessToWorkspace, Part001.isAdmin, List.any_eq_true, beq_iff_eq]
  · intro profile w h
    simp [Part001.hasAccessToWorkspace, Part001.isAdmin, h]

/-- C7 witness: scenario A of the spec — no memberships, profile absent (global
role `user`), asking about workspace `w1`. -/
theorem c7_witness : Part001.hasAccessToWorkspace none [] "w1" = false :=
  c7_hasAccessToWorkspace_spec.2 none "w1" rfl

/-- C8 counterexample: an account holding a `client_viewer` membership in `w2`
together with an `account_manager` membership in `w1`. The claim demands
`isClient() = true` regardless of the extra `account_manager` membership, but
the studiot provider derives the single coarse role `account_manager`, so its
`isClient()` answers `false`. -/
theorem c8_counterexample :
    (∃ m ∈ ([⟨"w2", "client_viewer"⟩, ⟨"w1", "account_manager"⟩] : List WorkspaceMember),
        m.role = "client_viewer" ∨ m.role = "client_approver") ∧
    StudiotAuth.isClient none [⟨"w2", "client_viewer"⟩, ⟨"w1", "account_manager"⟩] = false := by
  decide

/-- C8 (amended): the part_001 provider's `isClient()` is true iff some
membership has role `client_viewer` or `client_approver`, exactly as claimed;
the studiot provider derives one coarse role with priority admin, account
manager, client approver, client viewer, so its `isClient()` is true iff the
account is not admin, holds no `account_manager` membership, and holds some
`client_viewer` or `client_approver` membership. -/
theorem c8_isClient_characterization :
    (∀ ms : List WorkspaceMember,
      Part001.isClient ms = true ↔
        ∃ m ∈ ms, m.role = "client_viewer" ∨ m.role = "client_approver") ∧
    (∀ (profile : Option Profile) (ms : List WorkspaceMember),
      StudiotAuth.isClient profile ms = true ↔
        (StudiotAuth.profileIsAdmin profile = false ∧
         (¬ ∃ m ∈ ms, m.role = "account_manager") ∧
         ((∃ m ∈ ms, m.role = "client_approver") ∨ ∃ m ∈ ms, m.role = "client_viewer"))) := by
  constructor
  · intro ms
    simp [Part001.isClient, List.any_eq_true, beq_iff_eq]
  · intro profile ms
    rw [StudiotAuth.isClient_eq]
    simp [List.any_eq_true, beq_iff_eq, and_assoc]

/-- C10: when the profile load fails the provider stores `profile = null`;
the derived global role is then `user`, `isAdmin()` is false, and without a
`client_approver` membership `canApprove` is denied, and without a membership
referencing a workspace `hasAccessToWorkspace` is denied — the account fails
closed to non-admin rather than erroring. -/
theorem c10_fail_closed :
    (∀ e : String, Part001.loadedProfile (Except.error e) = none) ∧
    Part001.globalRole none = "user" ∧
    Part001.isAdmin none = false ∧
    (∀ ms : List WorkspaceMember, (¬ ∃ m ∈ ms, m.role = "client_approver") →
        Part001.canApprove none ms = false) ∧
    (∀ (ms : List WorkspaceMember) (w : String), (¬ ∃ m ∈ ms, m.workspace_id = w) →
        Part001.hasAccessToWorkspace none ms w = false) := by
  refine ⟨fun e => rfl, rfl, rfl, ?_, ?_⟩
  · intro ms h
    cases hA : ms.any (fun m => m.role == "client_approver") with
    | false => simp [Part001.canApprove, Part001.isAdmin, Part001.globalRole, hA]
    | true =>
      exfalso
      rcases List.any_eq_true.mp hA with ⟨m, hm, hc⟩
      exact h ⟨m, hm, beq_iff_eq.mp hc⟩
  · intro ms w h
    cases hA : ms.any (fun m => m.workspace_id == w) with
    | false => simp [Part001.hasAccessToWorkspace, Part001.isAdmin, Part001.globalRole, hA]
    | true =>
      exfalso
      rcases List.any_eq_true.mp hA with ⟨m, hm, hc⟩
      exact h ⟨m, hm, beq_iff_eq.mp hc⟩

/-- C10 witness: a failed profile load stores null, and a viewer-only
membership list denies both capabilities. -/
theorem c10_witness :
    Part001.loadedProfile (Except.error "NotFound") = none ∧
    Part001.canApprove none [⟨"w1", "client_viewer"⟩] = false ∧
    Part001.hasAccessToWorkspace none [⟨"w1", "client_viewer"⟩] "w2" = false :=
  ⟨c10_fail_closed.1 "NotFound",
   c10_fail_closed.2.2.2.1 [⟨"w1", "client_viewer"⟩] (by decide),
   c10_fail_closed.2.2.2.2 [⟨"w1", "client_viewer"⟩] "w2" (by decide)⟩

section ApprovalLemmas

/-- When the post exists and its status is still `sent_to_client`, the RPC
succeeds, leaves the comment and audit tables untouched, and the post
afterwards carries the requested approval status. -/
lemma approve_post_ok (pid pstatus : String) (reason actor : Option String) (now : Nat)
    (db : DB) (p : Post) (hp : findPost db pid = some p) (hs : p.status = "sent_to_client") :
    ∃ db1, approve_post pid pstatus reason actor now db = .ok db1 ∧
      db1.comments = db.comments ∧
      db1.audit_logs = db.audit_logs ∧
      (findPost db1 pid).map Post.approval_status = some (some pstatus) := by
  have hp' : db.posts.find? (fun r : Post => r.id == pid) = some p := hp
  have hid : (p.id == pid) = true := List.find?_some (p := fun r : Post => r.id == pid) hp'
  have hst : (p.status == "sent_to_client") = true := beq_iff_eq.mpr hs
  refine ⟨{ db with posts := db.posts.map (fun r : Post =>
      if r.id == pid then
        { r with approval_status := some pstatus, approved_by := actor,
                 approved_at := some now }
      else r) }, ?_, rfl, rfl, ?_⟩
  · simp [approve_post, hp, hst]
  · unfold findPost
    dsimp only
    rw [List.find?_map]
    have hfg : ((fun r : Post => r.id == pid) ∘ (fun r : Post =>
        if r.id == pid then
          { r with approval_status := some pstatus, approved_by := actor,
                   approved_at := some now }
        else r)) = fun r : Post => r.id == pid := by
      funext r
      by_cases h : (r.id == pid) = true
      · rw [Function.comp_apply, if_pos h]
      · rw [Function.comp_apply, if_neg h]
    rw [hfg, hp']
    simp [hid, beq_iff_eq.mp hid]

/-- A successful RPC call never touches the comment or audit tables. -/
lemma approve_post_preserves (pid pstatus : String) (reason actor : Option String)
    (now : Nat) (db db1 : DB)
    (h : approve_post pid pstatus reason actor now db = .ok db1) :
    db1.comments = db.comments ∧ db1.audit_logs = db.audit_logs := by
  unfold approve_post at h
  split at h
  · exact absurd h (by simp)
  · split at h
    · cases h
      exact ⟨rfl, rfl⟩
    · exact absurd h (by simp)

end ApprovalLemmas

/-- C2: the code commits the approval status through the `approve_post` RPC and
only afterwards inserts the audit row in a second, separate request, so the
state between the two commits — reachable by any concurrent reader, and final
whenever the audit insert fails — has `approvalStatus = approved` with zero
matching audit rows, contradicting the single-unit atomicity the claim
demands. -/
theorem c2_nonatomic_approve :
    (∃ s ∈ reachableStates demoDB
        (handleApprove (some "client@w1.example") demoPost 3 false false demoDB),
      (findPost s "p1").map Post.approval_status = some (some "approved") ∧
      auditEntriesFor s "p1" = []) ∧
    ((findPost (handleApprove (some "client@w1.example") demoPost 3 false true demoDB).final
        "p1").map Post.approval_status = some (some "approved") ∧
      auditEntriesFor
        (handleApprove (some "client@w1.example") demoPost 3 false true demoDB).final "p1" = []) := by
  decide

/-- C3 counterexample: request changes with reason `fix the caption` where the
comment insert fails. The handler throws before `createAuditLog` runs: the
approval decision is already committed (not rolled back), but — contrary to the
claim — no `changes_requested` audit entry is ever appended. -/
theorem c3_counterexample :
    (handleRequestChanges (some "client@w1.example") demoPost "fix the caption" 3
        false true false demoDB).ok = false ∧
    (findPost (handleRequestChanges (some "client@w1.example") demoPost "fix the caption" 3
        false true false demoDB).final "p1").map Post.approval_status =
      some (some "changes_requested") ∧
    auditEntriesFor (handleRequestChanges (some "client@w1.example") demoPost "fix the caption" 3
        false true false demoDB).final "p1" = [] := by
  decide

/-- C3 (amended): the comment append is attempted only after the primary
approval-status mutation succeeds (a failed RPC leaves the comment table
untouched), and a comment-append failure does not roll back the approval
decision — but it makes the handler throw before `createAuditLog` runs, so the
`changes_requested` audit entry is NOT appended. -/
theorem c3_comment_secondary (email : Option String) (p : Post) (reason : String)
    (now : Nat) (db : DB) (hp : findPost db p.id = some p)
    (hs : p.status = "sent_to_client") (hr : reason ≠ "") :
    (∀ failC failA : Bool,
      (handleRequestChanges email p reason now true failC failA db).final.comments
        = db.comments) ∧
    ((handleRequestChanges email p reason now false true false db).final.audit_logs
        = db.audit_logs ∧
     (findPost (handleRequestChanges email p reason now false true false db).final p.id).map
        Post.approval_status = some (some "changes_requested")) := by
  obtain ⟨db1, heq, hc, ha, hfind⟩ :=
    approve_post_ok p.id "changes_requested" (if reason == "" then none else some reason)
      email now db p hp hs
  have hre : (reason == "") = false := beq_eq_false_iff_ne.mpr hr
  have heq' : approve_post p.id "changes_requested" (some reason) email now db =
      Except.ok db1 := by
    simpa [hre] using heq
  constructor
  · intro failC failA
    rfl
  · have hrun : handleRequestChanges email p reason now false true false db =
        ⟨[db1], db1, false⟩ := by
      simp [handleRequestChanges, heq', hre]
    rw [hrun]
    exact ⟨ha, hfind⟩

/-- C3 witness: with reason `fix the caption` on the demo store, a failed RPC
appends no comment, and a failed comment insert leaves the audit table
unchanged. -/
theorem c3_witness :
    (handleRequestChanges (some "client@w1.example") demoPost "fix the caption" 3
        true false false demoDB).final.comments = demoDB.comments ∧
    (handleRequestChanges (some "client@w1.example") demoPost "fix the caption" 3
        false true false demoDB).final.audit_logs = demoDB.audit_logs :=
  ⟨(c3_comment_secondary (some "client@w1.example") demoPost "fix the caption" 3 demoDB
      (by decide) (by decide) (by decide)).1 false false,
   (c3_comment_secondary (some "client@w1.example") demoPost "fix the caption" 3 demoDB
      (by decide) (by decide) (by decide)).2.1⟩

/-- C4: a successful RequestChanges run with a non-empty reason appends exactly
one comment, with content `Changes requested: ` followed by the reason and
`is_internal = false`; with no reason supplied, no run — whatever requests fail
— ever appends a comment. -/
theorem c4_request_changes_comment (email : Option String) (p : Post) (reason : String)
    (now : Nat) (db : DB) (hp : findPost db p.id = some p)
    (hs : p.status = "sent_to_client") :
    (reason ≠ "" →
      (handleRequestChanges email p reason now false false false db).final.comments =
        db.comments ++ [⟨p.id, p.workspace_id, "Changes requested: " ++ reason, false⟩]) ∧
    (reason = "" →
      ∀ failR failC failA : Bool,
        ∀ s ∈ reachableStates db (handleRequestChanges email p reason now failR failC failA db),
          s.comments = db.comments) := by
  obtain ⟨db1, heq, hc, ha, hfind⟩ :=
    approve_post_ok p.id "changes_requested" (if reason == "" then none else some reason)
      email now db p hp hs
  constructor
  · intro hr
    have hre : (reason == "") = false := beq_eq_false_iff_ne.mpr hr
    have heq' : approve_post p.id "changes_requested" (some reason) email now db =
        Except.ok db1 := by
      simpa [hre] using heq
    have hrun : handleRequestChanges email p reason now false false false db =
        ⟨[db1, createComment ⟨p.id, p.workspace_id, "Changes requested: " ++ reason, false⟩ db1,
          createAuditLog p "changes_requested" ⟨"Changes requested", none, some reason, email⟩
            (createComment ⟨p.id, p.workspace_id, "Changes requested: " ++ reason, false⟩ db1)],
         createAuditLog p "changes_requested" ⟨"Changes requested", none, some reason, email⟩
            (createComment ⟨p.id, p.workspace_id, "Changes requested: " ++ reason, false⟩ db1),
         true⟩ := by
      simp [handleRequestChanges, heq', hre]
    rw [hrun]
    simp [createAuditLog, createComment, hc]
  · intro hr0
    subst hr0
    have heq' : approve_post p.id "changes_requested" none email now db =
        Except.ok db1 := by
      simpa using heq
    intro failR failC failA s hsmem
    cases failR with
    | true =>
      simp [handleRequestChanges, reachableStates] at hsmem
      subst hsmem
      rfl
    | false =>
      cases failA with
      | true =>
        simp [handleRequestChanges, heq', reachableStates] at hsmem
        rcases hsmem with h | h
        · subst h; rfl
        · subst h; exact hc
      | false =>
        simp [handleRequestChanges, heq', reachableStates] at hsmem
        rcases hsmem with h | h | h
        · subst h; rfl
        · subst h; exact hc
        · subst h; exact hc

/-- C4 witness: scenario C's reason on the demo store appends exactly the one
expected comment; an empty reason appends none even mid-run. -/
theorem c4_witness :
    (handleRequestChanges (some "client@w1.example") demoPost "fix the caption" 3
        false false false demoDB).final.comments =
      demoDB.comments ++ [⟨"p1", "w1", "Changes requested: fix the caption", false⟩] ∧
    (handleRequestChanges (some "client@w1.example") demoPost "" 3
        false false false demoDB).final.comments = demoDB.comments :=
  ⟨(c4_request_changes_comment (some "client@w1.example") demoPost "fix the caption" 3 demoDB
      (by decide) (by decide)).1 (by decide),
   (c4_request_changes_comment (some "client@w1.example") demoPost "" 3 demoDB
      (by decide) (by decide)).2 rfl false false false
      (handleRequestChanges (some "client@w1.example") demoPost "" 3 false false false demoDB).final
      (by decide)⟩

/-- C6: approving a post whose `approval_status` is already `approved` (status
still `sent_to_client`) succeeds, leaves the approval status unchanged, and
grows the audit log by exactly one entry. The `approve_post` RPC itself is
modelled from the spec's idempotency policy, as it is server-side code outside
the repository. -/
theorem c6_idempotent_approve (email : Option String) (p : Post) (now : Nat) (db : DB)
    (hp : findPost db p.id = some p) (hs : p.status = "sent_to_client")
    (ha : p.approval_status = some "approved") :
    (handleApprove email p now false false db).ok = true ∧
    (findPost (handleApprove email p now false false db).final p.id).map Post.approval_status =
      some p.approval_status ∧
    (handleApprove email p now false false db).final.audit_logs.length =
      db.audit_logs.length + 1 := by
  obtain ⟨db1, heq, hc, haud, hfind⟩ := approve_post_ok p.id "approved" none email now db p hp hs
  have hrun : handleApprove email p now false false db =
      ⟨[db1, createAuditLog p "approved" ⟨"Post approved", email, none, none⟩ db1],
       createAuditLog p "approved" ⟨"Post approved", email, none, none⟩ db1, true⟩ := by
    simp [handleApprove, heq]
  rw [hrun]
  refine ⟨rfl, ?_, ?_⟩
  · rw [ha]
    exact hfind
  · simp [createAuditLog, haud]

/-- C6 witness: re-approving the already-approved demo post succeeds, keeps the
status `approved`, and takes the audit log from one entry to two. -/
theorem c6_witness :
    (handleApprove (some "second@w1.example") demoApprovedPost 9 false false
        demoApprovedDB).ok = true ∧
    (findPost (handleApprove (some "second@w1.example") demoApprovedPost 9 false false
        demoApprovedDB).final demoApprovedPost.id).map Post.approval_status =
      some demoApprovedPost.approval_status ∧
    (handleApprove (some "second@w1.example") demoApprovedPost 9 false false
        demoApprovedDB).final.audit_logs.length = demoApprovedDB.audit_logs.length + 1 :=
  c6_idempotent_approve (some "second@w1.example") demoApprovedPost 9 demoApprovedDB
    (by decide) (by decide) (by decide)

/-- The no-cross-workspace-leakage property of the spec, relative to a starting
state: every audit row and every comment of `s` either already existed in `db0`
or carries workspace `w`. -/
def LeakFree (db0 : DB) (w : String) (s : DB) : Prop :=
  (∀ e ∈ s.audit_logs, e ∈ db0.audit_logs ∨ e.workspace_id = w) ∧
  (∀ c ∈ s.comments, c ∈ db0.comments ∨ c.workspace_id = w)

section LeakLemmas

lemma leakFree_self (db0 : DB) (w : String) : LeakFree db0 w db0 :=
  ⟨fun _ he => Or.inl he, fun _ hc => Or.inl hc⟩

lemma leakFree_createAuditLog (db0 : DB) (s : DB) (post : Post) (action : String)
    (details : AuditDetails) (h : LeakFree db0 post.workspace_id s) :
    LeakFree db0 post.workspace_id (createAuditLog post action details s) := by
  obtain ⟨hA, hC⟩ := h
  refine ⟨?_, hC⟩
  intro e he
  rcases List.mem_append.mp he with h1 | h1
  · exact hA e h1
  · right
    have he' : e = ⟨post.workspace_id, "post", post.id, action, details⟩ := by
      simpa using h1
    rw [he']

lemma leakFree_createComment (db0 : DB) (s : DB) (c0 : Comment) (w : String)
    (hw : c0.workspace_id = w) (h : LeakFree db0 w s) :
    LeakFree db0 w (createComment c0 s) := by
  obtain ⟨hA, hC⟩ := h
  refine ⟨hA, ?_⟩
  intro c hc
  rcases List.mem_append.mp hc with h1 | h1
  · exact hC c h1
  · right
    have hc' : c = c0 := by simpa using h1
    rw [hc', hw]

lemma leakFree_approve_post (db0 : DB) (w : String) (s s1 : DB) (pid pstatus : String)
    (reason actor : Option String) (now : Nat)
    (heq : approve_post pid pstatus reason actor now s = .ok s1)
    (h : LeakFree db0 w s) : LeakFree db0 w s1 := by
  obtain ⟨hc, ha⟩ := approve_post_preserves pid pstatus reason actor now s s1 heq
  exact ⟨ha ▸ h.1, hc ▸ h.2⟩

end LeakLemmas

/-- C5: applying Approve or RequestChanges to a post of workspace `w1` never
produces — in any intermediate or final state, under any combination of request
failures — an audit row or comment whose workspace differs from the post's:
every row is either pre-existing or carries `post.workspace_id`. -/
theorem c5_no_cross_workspace_leak (email : Option String) (p : Post) (reason : String)
    (now : Nat) (db : DB) (fr fa gr gc ga : Bool) :
    (∀ s ∈ reachableStates db (handleApprove email p now fr fa db),
        LeakFree db p.workspace_id s) ∧
    (∀ s ∈ reachableStates db (handleRequestChanges email p reason now gr gc ga db),
        LeakFree db p.workspace_id s) := by
  constructor
  · intro s hsmem
    cases fr with
    | true =>
      simp [handleApprove, reachableStates] at hsmem
      rw [hsmem]
      exact leakFree_self db _
    | false =>
      cases heq : approve_post p.id "approved" none email now db with
      | error err =>
        simp [handleApprove, heq, reachableStates] at hsmem
        rw [hsmem]
        exact leakFree_self db _
      | ok db1 =>
        have h1 : LeakFree db p.workspace_id db1 :=
          leakFree_approve_post db p.workspace_id db db1 p.id "approved" none email now heq
            (leakFree_self db _)
        cases fa with
        | true =>
          simp [handleApprove, heq, reachableStates] at hsmem
          rcases hsmem with h | h
          · rw [h]; exact leakFree_self db _
          · rw [h]; exact h1
        | false =>
          simp [handleApprove, heq, reachableStates] at hsmem
          rcases hsmem with h | h | h
          · rw [h]; exact leakFree_self db _
          · rw [h]; exact h1
          · rw [h]; exact leakFree_createAuditLog db db1 p "approved" _ h1
  · intro s hsmem
    cases gr with
    | true =>
      simp [handleRequestChanges, reachableStates] at hsmem
      rw [hsmem]
      exact leakFree_self db _
    | false =>
      cases hre : reason == "" with
      | true =>
        have hr0 : reason = "" := by simpa using hre
        subst hr0
        cases heq : approve_post p.id "changes_requested" none email now db with
        | error err =>
          simp [handleRequestChanges, heq, reachableStates] at hsmem
          rw [hsmem]
          exact leakFree_self db _
        | ok db1 =>
          have h1 : LeakFree db p.workspace_id db1 :=
            leakFree_approve_post db p.workspace_id db db1 p.id "changes_requested"
              none email now heq (leakFree_self db _)
          cases ga with
          | true =>
            simp [handleRequestChanges, heq, reachableStates] at hsmem
            rcases hsmem with h | h
            · rw [h]; exact leakFree_self db _
            · rw [h]; exact h1
          | false =>
            simp [handleRequestChanges, heq, reachableStates] at hsmem
            rcases hsmem with h | h | h
            · rw [h]; exact leakFree_self db _
            · rw [h]; exact h1
            · rw [h]; exact leakFree_createAuditLog db db1 p "changes_requested" _ h1
      | false =>
        have hr1 : ¬ reason = "" := by simpa using hre
        cases heq : approve_post p.id "changes_requested" (some reason) email now db with
        | error err =>
          simp [handleRequestChanges, heq, hr1, reachableStates] at hsmem
          rw [hsmem]
          exact leakFree_self db _
        | ok db1 =>
          have h1 : LeakFree db p.workspace_id db1 :=
            leakFree_approve_post db p.workspace_id db db1 p.id "changes_requested"
              (some reason) email now heq (leakFree_self db _)
          have h2 : LeakFree db p.workspace_id
              (createComment ⟨p.id, p.workspace_id, "Changes requested: " ++ reason, false⟩ db1) :=
            leakFree_createComment db db1 _ p.workspace_id rfl h1
          cases gc with
          | true =>
            simp [handleRequestChanges, heq, hr1, reachableStates] at hsmem
            rcases hsmem with h | h
            · rw [h]; exact leakFree_self db _
            · rw [h]; exact h1
          | false =>
            cases ga with
            | true =>
              simp [handleRequestChanges, heq, hr1, reachableStates] at hsmem
              rcases hsmem with h | h | h
              · rw [h]; exact leakFree_self db _
              · rw [h]; exact h1
              · rw [h]; exact h2
            | false =>
              simp [handleRequestChanges, heq, hr1, reachableStates] at hsmem
              rcases hsmem with h | h | h | h
              · rw [h]; exact leakFree_self db _
              · rw [h]; exact h1
              · rw [h]; exact h2
              · rw [h]
                exact leakFree_createAuditLog db _ p "changes_requested" _ h2

/-- C5 witness: the audit entry produced by approving the demo post either
pre-existed or carries the demo post's workspace. -/
theorem c5_witness :
    (⟨"w1", "post", "p1", "approved",
        ⟨"Post approved", some "client@w1.example", none, none⟩⟩ : AuditLogEntry)
      ∈ demoDB.audit_logs ∨
    (⟨"w1", "post", "p1", "approved",
        ⟨"Post approved", some "client@w1.example", none, none⟩⟩ : AuditLogEntry).workspace_id
      = demoPost.workspace_id :=
  ((c5_no_cross_workspace_leak (some "client@w1.example") demoPost "" 3 demoDB
      false false false false false).1
    (handleApprove (some "client@w1.example") demoPost 3 false false demoDB).final
    (by decide)).1
    ⟨"w1", "post", "p1", "approved", ⟨"Post approved", some "client@w1.example", none, none⟩⟩
    (by decide)

/-- A branch of the scoping filter — an equality filter applied only when the
selector is active — always yields a sublist. -/
lemma ite_filter_sublist {α : Type} (c : Prop) [Decidable c] (l : List α) (q : α → Bool) :
    List.Sublist (if c then l.filter q else l) l := by
  split
  · exact List.filter_sublist l
  · exact List.Sublist.refl l

/-- C9: the Calendar page's scoping filter is a stable, narrowing filter: for
every input collection and every workspace/platform/account selector value, the
output is a subsequence of the input — it preserves the input's relative
ordering and never contains a row absent from the input. -/
theorem c9_scoping_filter_stable (allPosts : List CalendarPage.CalendarPost)
    (allAccounts : List CalendarPage.SocialAccount) (sw sp sa : String) :
    List.Sublist (CalendarPage.posts allPosts allAccounts sw sp sa) allPosts := by
  unfold CalendarPage.posts
  exact (ite_filter_sublist _ _ _).trans ((ite_filter_sublist _ _ _).trans
    ((ite_filter_sublist _ _ _).trans (List.filter_sublist _)))
